import Mathlib

/-!
Verification of the computational core of `light_the_gains.py`, a portfolio
tracker that maps aggregate one-day portfolio performance onto a smart-bulb
color.  The Python source is shallowly embedded: pandas float columns become
`Option ℚ` fields (with `none` standing for a missing value, that is NaN in
the dataframe), Python `None` results and float special values are separated
explicitly where the distinction is observable (`Agg`), and every Python
truthiness test (`if x:` on a float) is translated as `x` being non-`none`
and nonzero.
-/

namespace LightTheGains

/-- Bankers rounding of a rational to the nearest integer, ties to even.
Models CPython `round` and pandas `DataFrame.round` (half-even): the floor
when the fractional part is below one half, the ceiling when above, and
the even neighbour on a tie. -/
def roundHalfEven (q : ℚ) : ℤ :=
  let f : ℤ := ⌊q⌋
  if 2 * q < 2 * (f : ℚ) + 1 then f
  else if 2 * (f : ℚ) + 1 < 2 * q then f + 1
  else if f % 2 = 0 then f else f + 1

/-- Rounding to 2 decimal places, as `round(x, 2)` and `df.round(2)`. -/
def round2 (q : ℚ) : ℚ := (roundHalfEven (q * 100) : ℚ) / 100

/-- A JSON scalar as it appears in a loaded portfolio record. -/
inductive JVal where
  | num (q : ℚ)
  | str (s : String)
  | null
deriving DecidableEq

/-- Numeric value of a digit list, most significant first. -/
def natOfDigits (l : List Char) : ℕ :=
  l.foldl (fun a c => a * 10 + (c.toNat - 48)) 0

/-- Decimal parsing of a string, modelling the numeric coercion that
`pd.to_numeric` applies to string entries: an optional sign, an integer
part and an optional fractional part.  Anything else is not numeric. -/
def parseNum (s : String) : Option ℚ :=
  let core : List Char → Option ℚ := fun l =>
    match l.span (fun c => c != '.') with
    | (intPart, []) =>
        if intPart ≠ [] ∧ intPart.all (fun c => c.isDigit)
        then some (natOfDigits intPart) else none
    | (intPart, _dot :: fracPart) =>
        if fracPart ≠ [] ∧ intPart.all (fun c => c.isDigit) ∧
            fracPart.all (fun c => c.isDigit)
        then some ((natOfDigits intPart : ℚ) +
              (natOfDigits fracPart : ℚ) / (10 ^ fracPart.length))
        else none
  match s.data with
  | '-' :: t => (core t).map (fun q => -q)
  | '+' :: t => core t
  | t => core t

/-- The coercion `pd.to_numeric(col, errors="coerce").fillna(0)` applied to
one cell: numbers pass through, numeric strings parse, anything else
(including a missing cell) becomes `0`. -/
def coerceNum : JVal → ℚ
  | .num q => q
  | .str s => (parseNum s).getD 0
  | .null => 0

/-- One parsed JSON record: association list of keys to scalar values. -/
abbrev Record := List (String × JVal)

/-- Value of key `k` in record `r`; a key that is absent in this record but
present elsewhere in the table is a NaN cell, modelled by `JVal.null`. -/
def getField (r : Record) (k : String) : JVal :=
  match r.find? (fun kv => kv.1 = k) with
  | some kv => kv.2
  | none => .null

/-- The two fatal loading failures of `load_portfolio`: the `except` branch
around `json.load` and `pd.DataFrame` (parse failure), and the required-key
check on the resulting columns (format failure). -/
inductive LoadError where
  | parseError
  | formatError
deriving DecidableEq

/-- The required key set of `load_portfolio`. -/
def requiredKeys : List String := ["symbol", "qty", "buy_price"]

/-- Whether key `k` occurs in the overall schema of the parsed records,
i.e. in the union of keys that forms `pd.DataFrame(data).columns`. -/
def hasColumn (recs : List Record) (k : String) : Bool :=
  recs.any (fun r => r.any (fun kv => kv.1 = k))

/-- Embedding of `load_portfolio` after the file suffix check: the argument
is `none` when `json.load`/`pd.DataFrame` raised (source not parseable as
structured data), otherwise the list of parsed records.  Mirrors lines
70 to 86 of the source. -/
def load_portfolio (src : Option (List Record)) : Except LoadError (List Record) :=
  match src with
  | none => .error .parseError
  | some recs =>
      if requiredKeys.all (fun k => hasColumn recs k) then .ok recs
      else .error .formatError

/-- Whitespace characters removed by Python `str.strip` (ASCII range). -/
def isSpaceChar (c : Char) : Bool :=
  c = ' ' ∨ c = '\t' ∨ c = '\n' ∨ c = '\r' ∨ c = '\x0b' ∨ c = '\x0c'

/-- Removal of trailing whitespace. -/
def rstripL (l : List Char) : List Char :=
  (l.reverse.dropWhile isSpaceChar).reverse

/-- Python `str.strip`: removal of leading and trailing whitespace. -/
def stripL (l : List Char) : List Char :=
  rstripL (l.dropWhile isSpaceChar)

/-- Python `str.upper` (ASCII letters). -/
def upperL (l : List Char) : List Char := l.map Char.toUpper

/-- The fixed market suffix appended by `normalize_symbol`. -/
def nsSuffix : List Char := ['.', 'N', 'S']

/-- The module constant `AUTO_APPEND_NS`. -/
def AUTO_APPEND_NS : Bool := true

/-- The suffix step of `normalize_symbol`: append `.NS` when the constant
is set and the string does not already end with `.NS`. -/
def withNS (l : List Char) : List Char :=
  if AUTO_APPEND_NS ∧ ¬ nsSuffix.isSuffixOf l then l ++ nsSuffix else l

/-- The `s.replace("&", "%26")` step of `normalize_symbol`. -/
def encAmp : List Char → List Char
  | [] => []
  | c :: t => (if c = '&' then ['%', '2', '6'] else [c]) ++ encAmp t

/-- Embedding of `normalize_symbol` (lines 89 to 94): strip, upper-case,
append the market suffix when absent, percent-encode ampersands. -/
def normalize_symbol (s : String) : String :=
  String.mk (encAmp (withNS (upperL (stripL s.data))))

/-- Outcome of the network part of `fetch_yfinance_price` for one symbol,
after the primary/fallback chain: either the pair of optional values
`last_price` and `previous_close`, or a raised exception. -/
inductive FetchOutcome where
  | ok (last_price previous_close : Option ℚ)
  | fail
deriving DecidableEq

/-- Line 116 to 119 of the source: the raw one-day return, computed only
when both `last_price` and `prev_close` are truthy (present and nonzero). -/
def one_day_return : Option ℚ → Option ℚ → Option ℚ
  | some lp, some pc =>
      if lp ≠ 0 ∧ pc ≠ 0 then some ((lp - pc) / pc * 100) else none
  | _, _ => none

/-- Embedding of `fetch_yfinance_price` (lines 97 to 128) given the network
outcome: on an exception the pair `(None, None)` is returned; otherwise the
price is returned when truthy and the rounded one-day return is returned
when the raw return is truthy. -/
def fetchPair : FetchOutcome → Option ℚ × Option ℚ
  | .fail => (none, none)
  | .ok lp pc =>
      ( match lp with
        | some l => if l ≠ 0 then some l else none
        | none => none,
        match one_day_return lp pc with
        | some r => if r ≠ 0 then some (round2 r) else none
        | none => none )

/-- Functional update of a string-keyed mapping, modelling one dictionary
assignment; `none` stands for a key that is absent or bound to `None`. -/
def updMap (m : String → Option ℚ) (k : String) (v : Option ℚ) :
    String → Option ℚ :=
  fun s => if s = k then v else m s

/-- The loop body of `fetch_live_prices`: one dictionary update pair per
symbol, in list order. -/
def fetch_live_prices_go (oracle : String → FetchOutcome) :
    List String → (String → Option ℚ) × (String → Option ℚ) →
    (String → Option ℚ) × (String → Option ℚ)
  | [], maps => maps
  | sym :: rest, maps =>
      fetch_live_prices_go oracle rest
        (updMap maps.1 sym (fetchPair (oracle sym)).1,
         updMap maps.2 sym (fetchPair (oracle sym)).2)

/-- Embedding of `fetch_live_prices` (lines 131 to 138): serial fetch of
every symbol, accumulating the `prices` and `returns` dictionaries. -/
def fetch_live_prices (symbols : List String) (oracle : String → FetchOutcome) :
    (String → Option ℚ) × (String → Option ℚ) :=
  fetch_live_prices_go oracle symbols (fun _ => none, fun _ => none)

/-- One row of the computed dataframe of `compute_portfolio`.  Fields of
type `Option ℚ` are NaN cells when `none`. -/
structure Enriched where
  symbol : String
  qty : ℚ
  buy_price : ℚ
  current_price : Option ℚ
  one_day_return_pct : Option ℚ
  invested : ℚ
  current_value : Option ℚ
  profit_loss : Option ℚ
  return_pct : Option ℚ
deriving DecidableEq

/-- The per-row derivations of `compute_portfolio` (lines 149 to 160),
before the final `df.round(2)`:  numeric coercion of `qty` and `buy_price`,
`invested`, `current_value`, `profit_loss`, and the guarded `return_pct`. -/
def enrichRow (sym : String) (qv bv : JVal) (cp odr : Option ℚ) : Enriched :=
  let q := coerceNum qv
  let b := coerceNum bv
  let inv := q * b
  let cv := cp.map (fun p => q * p)
  { symbol := sym, qty := q, buy_price := b, current_price := cp,
    one_day_return_pct := odr, invested := inv, current_value := cv,
    profit_loss := cv.map (fun v => v - inv),
    return_pct :=
      if inv ≠ 0 then (cv.map (fun v => v - inv)).map (fun x => x / inv * 100)
      else none }

/-- The final `df.round(2)` of `compute_portfolio` applied to one row; NaN
cells stay NaN. -/
def roundRow (e : Enriched) : Enriched :=
  { e with
    qty := round2 e.qty,
    buy_price := round2 e.buy_price,
    current_price := e.current_price.map round2,
    one_day_return_pct := e.one_day_return_pct.map round2,
    invested := round2 e.invested,
    current_value := e.current_value.map round2,
    profit_loss := e.profit_loss.map round2,
    return_pct := e.return_pct.map round2 }

/-- The `symbol` cell read as a string (the source applies string methods
to it directly). -/
def symName : JVal → String
  | .str s => s
  | _ => ""

/-- Embedding of `compute_portfolio` (lines 141 to 162): normalize each
symbol, fetch all quotes serially, join each record to the fetched maps by
its normalized symbol, derive the per-row fields and round the whole table
to 2 decimal places. -/
def compute_portfolio (recs : List Record) (oracle : String → FetchOutcome) :
    List Enriched :=
  let maps := fetch_live_prices
    (recs.map (fun r => normalize_symbol (symName (getField r "symbol")))) oracle
  recs.map (fun r =>
    let ns := normalize_symbol (symName (getField r "symbol"))
    roundRow (enrichRow (symName (getField r "symbol"))
      (getField r "qty") (getField r "buy_price") (maps.1 ns) (maps.2 ns)))

/-- Line 173 of the source: `df["invested"].sum()`.  The `invested` column
never holds NaN, so every row contributes. -/
def total_invested (rows : List Enriched) : ℚ :=
  (rows.map (fun r => r.invested)).sum

/-- Line 174 of the source: `df["current_value"].sum()`; the pandas sum
skips NaN cells. -/
def total_current (rows : List Enriched) : ℚ :=
  (rows.filterMap (fun r => r.current_value)).sum

/-- Line 175 of the source: unrealized profit and loss. -/
def total_pnl (rows : List Enriched) : ℚ :=
  total_current rows - total_invested rows

/-- Line 176 of the source: total return percentage, `None` when
`total_invested` is falsy (zero). -/
def total_return_pct (rows : List Enriched) : Option ℚ :=
  if total_invested rows ≠ 0 then
    some (total_pnl rows / total_invested rows * 100)
  else none

/-- The value of the aggregate one-day change as `print_summary` returns
it: Python `None` (`undef`), a float NaN, a signed infinity, or a finite
value.  The special values arise from the unguarded float division. -/
inductive Agg where
  | undef
  | nan
  | pinf
  | ninf
  | val (q : ℚ)
deriving DecidableEq

/-- Line 178 of the source: `df.dropna(subset=["1d_return_pct",
"current_value"])`. -/
def valid_1d (rows : List Enriched) : List Enriched :=
  rows.filter (fun r => r.one_day_return_pct.isSome && r.current_value.isSome)

/-- The numerator on line 180: sum of per-row return times current value
over the qualifying rows. -/
def wnum (rows : List Enriched) : ℚ :=
  ((valid_1d rows).map
    (fun r => r.one_day_return_pct.getD 0 * r.current_value.getD 0)).sum

/-- The denominator on line 181: sum of current value over the qualifying
rows. -/
def wden (rows : List Enriched) : ℚ :=
  ((valid_1d rows).map (fun r => r.current_value.getD 0)).sum

/-- IEEE float division of two finite values as numpy performs it: a
finite quotient when the divisor is nonzero, NaN for 0/0, and a signed
infinity for x/0 with x nonzero. -/
def pyDivAgg (n d : ℚ) : Agg :=
  if d ≠ 0 then .val (n / d)
  else if n = 0 then .nan
  else if 0 < n then .pinf
  else .ninf

/-- Lines 179 to 183 of the source: the overall one-day change is `None`
when no row qualifies, and otherwise the float quotient of the weighted
sum by the weight sum. -/
def overall_1d_change (rows : List Enriched) : Agg :=
  if valid_1d rows = [] then .undef
  else pyDivAgg (wnum rows) (wden rows)

/-- The comparison `change_pct > c` on a float that may be NaN or
infinite: NaN compares false, infinities compare as expected. -/
def aggGt (a : Agg) (c : ℚ) : Bool :=
  match a with
  | .val q => decide (c < q)
  | .pinf => true
  | _ => false

/-- The comparison `change_pct < c` on a float that may be NaN or
infinite. -/
def aggLt (a : Agg) (c : ℚ) : Bool :=
  match a with
  | .val q => decide (q < c)
  | .ninf => true
  | _ => false

/-- Commands issued to the bulb device, in order. -/
inductive BulbCmd where
  | turnOn
  | setColour (r g b : ℕ)
  | setWhite
deriving DecidableEq

/-- Embedding of `set_bulb_color` (lines 47 to 64) as the list of device
operations it performs: nothing at all when the input is `None`, otherwise
a power-on followed by the color chosen by the two threshold tests. -/
def set_bulb_color (a : Agg) : List BulbCmd :=
  if a = .undef then []
  else
    BulbCmd.turnOn ::
      (if aggGt a (3/10) then [BulbCmd.setColour 0 255 0]
       else if aggLt a (-3/10) then [BulbCmd.setColour 255 0 0]
       else [BulbCmd.setWhite])

/-- The four abstract states of the signal classifier. -/
inductive Signal where
  | GAIN
  | LOSS
  | NEUTRAL
  | UNKNOWN
deriving DecidableEq

/-- The classification implicit in the branch structure of
`set_bulb_color`. -/
def classify (a : Agg) : Signal :=
  if a = .undef then .UNKNOWN
  else if aggGt a (3/10) then .GAIN
  else if aggLt a (-3/10) then .LOSS
  else .NEUTRAL

/-- Device command sequence associated with each classifier state. -/
def signalCmds : Signal → List BulbCmd
  | .UNKNOWN => []
  | .GAIN => [.turnOn, .setColour 0 255 0]
  | .LOSS => [.turnOn, .setColour 255 0 0]
  | .NEUTRAL => [.turnOn, .setWhite]

/-- Observable state of the bulb device. -/
structure BulbState where
  power : Bool
  colour : Option (ℕ × ℕ × ℕ)
deriving DecidableEq

/-- Effect of one device command on the bulb state; `colour = none` is the
white (neutral) mode. -/
def applyCmd (s : BulbState) : BulbCmd → BulbState
  | .turnOn => { s with power := true }
  | .setColour r g b => { s with colour := some (r, g, b) }
  | .setWhite => { s with colour := none }

/-- Effect of a command sequence on the bulb state. -/
def applyCmds (s : BulbState) (cmds : List BulbCmd) : BulbState :=
  cmds.foldl applyCmd s

/-- A summary row with only the fields read by the aggregate one-day
computation populated; used for concrete tables. -/
def mkRow (od cv : Option ℚ) : Enriched :=
  { symbol := "", qty := 0, buy_price := 0, current_price := none,
    one_day_return_pct := od, invested := 0, current_value := cv,
    profit_loss := none, return_pct := none }

/-- The example table from the specification: current value 100 at a 2.0
percent one-day return, and current value 300 at minus 1.0 percent. -/
def exampleRows : List Enriched :=
  [mkRow (some 2) (some 100), mkRow (some (-1)) (some 300)]

/-- An oracle for which every fetch raises. -/
def oracleFail : String → FetchOutcome := fun _ => .fail


/-- Records and oracle for the C1 counterexample: two holdings whose
current values cancel (quantity 1 and quantity minus 1 at the same fetched
price), both with a defined one-day return. -/
def recA1 : Record :=
  [("symbol", JVal.str "A"), ("qty", JVal.num 1), ("buy_price", JVal.num 10)]

/-- Second record of the C1 counterexample. -/
def recB1 : Record :=
  [("symbol", JVal.str "B"), ("qty", JVal.num (-1)), ("buy_price", JVal.num 10)]

/-- Holdings table of the C1 counterexample. -/
def recsC1 : List Record := [recA1, recB1]

/-- Oracle of the C1 counterexample: both symbols fetch successfully with
price 100 and distinct nonzero one-day returns (25 and 100 percent). -/
def oracleC1 : String → FetchOutcome := fun s =>
  if s = "A.NS" then .ok (some 100) (some 80)
  else if s = "B.NS" then .ok (some 100) (some 50)
  else .fail

/-- Record with a sub-cent invested amount, for the C4 counterexample. -/
def recC4 : Record :=
  [("symbol", JVal.str "A"), ("qty", JVal.num 1), ("buy_price", JVal.num (1/250))]

/-- Holdings table of the C4 counterexample: two rows of 0.004 each. -/
def recsC4 : List Record := [recC4, recC4]

/-- Record with a plain holding, for the C5 counterexample. -/
def recC5 : Record :=
  [("symbol", JVal.str "A"), ("qty", JVal.num 1), ("buy_price", JVal.num 100)]

/-- Holdings table of the C5 counterexample: one row whose fetch fails. -/
def recsC5 : List Record := [recC5]

/-- A row whose quote fetch failed but that carries a nonzero invested
amount. -/
def failRow : Enriched :=
  { symbol := "F", qty := 1, buy_price := 100, current_price := none,
    one_day_return_pct := none, invested := 100, current_value := none,
    profit_loss := none, return_pct := none }

/-- Records whose every row lacks the `buy_price` key. -/
def recsMissingBuy : List Record :=
  [[("symbol", JVal.str "A"), ("qty", JVal.num 1)],
   [("symbol", JVal.str "B"), ("qty", JVal.num 2)]]

/-- Records where one row has the non-numeric quantity string `abc`. -/
def recsAbcQty : List Record :=
  [[("symbol", JVal.str "A"), ("qty", JVal.str "abc"), ("buy_price", JVal.num 10)]]

/-- Helper: the float-division result of `pyDivAgg` is never the Python
`None` marker. -/
theorem pyDivAgg_ne_undef (n d : ℚ) : pyDivAgg n d ≠ Agg.undef := by
  unfold pyDivAgg
  split
  · simp
  · split
    · simp
    · split <;> simp

/-- Helper: an empty qualifying set has weight sum zero. -/
theorem wden_of_valid_nil (rows : List Enriched) (h : valid_1d rows = []) :
    wden rows = 0 := by
  simp [wden, h]

/-- C1 (amended).  The aggregate one-day change of `print_summary` is the
Python value `None` exactly when no row has both `1d_return_pct` and
`current_value` defined.  When the weight sum over qualifying rows is
nonzero the aggregate is the current-value-weighted mean of the per-row
one-day returns.  When rows qualify but the weight sum is zero the result
is not `None`: it is the float NaN when the weighted sum is zero as well,
and a signed infinity otherwise.  On the example rows (current value 100
at 2.0 percent and 300 at minus 1.0 percent) the aggregate is minus
0.25. -/
theorem C1_overall_weighted_mean (rows : List Enriched) :
    (overall_1d_change rows = Agg.undef ↔ valid_1d rows = []) ∧
    (wden rows ≠ 0 → overall_1d_change rows = Agg.val (wnum rows / wden rows)) ∧
    (valid_1d rows ≠ [] → wden rows = 0 → wnum rows = 0 →
      overall_1d_change rows = Agg.nan) ∧
    (valid_1d rows ≠ [] → wden rows = 0 → wnum rows ≠ 0 →
      (overall_1d_change rows = Agg.pinf ∨ overall_1d_change rows = Agg.ninf)) ∧
    overall_1d_change exampleRows = Agg.val (-(1/4)) := by
  refine ⟨?_, ?_, ?_, ?_, ?_⟩
  · by_cases h : valid_1d rows = []
    · simp [overall_1d_change, h]
    · simp [overall_1d_change, h, pyDivAgg_ne_undef]
  · intro hd
    have hv : valid_1d rows ≠ [] := fun he => hd (wden_of_valid_nil rows he)
    simp [overall_1d_change, hv, pyDivAgg, hd]
  · intro hv hd hn
    simp [overall_1d_change, hv, pyDivAgg, hd, hn]
  · intro hv hd hn
    by_cases hp : 0 < wnum rows
    · left
      simp [overall_1d_change, hv, pyDivAgg, hd, hn, hp]
    · right
      simp [overall_1d_change, hv, pyDivAgg, hd, hn, hp]
  · norm_num [overall_1d_change, valid_1d, wnum, wden, exampleRows, mkRow, pyDivAgg]
    all_goals simp_all

/-- C1 witness: on the example table the weight sum is nonzero and the
weighted-mean branch of the theorem yields the aggregate. -/
theorem C1_witness :
    wden exampleRows ≠ 0 ∧
    overall_1d_change exampleRows = Agg.val (wnum exampleRows / wden exampleRows) :=
  ⟨by norm_num [wden, valid_1d, exampleRows, mkRow],
   (C1_overall_weighted_mean exampleRows).2.1
     (by norm_num [wden, valid_1d, exampleRows, mkRow])⟩

set_option maxHeartbeats 1000000 in
/-- C1 counterexample.  A reachable holdings table (quantities 1 and minus
1, both quotes fetched at price 100 with defined returns) has qualifying
rows whose weight sum is zero, yet the aggregate is not undefined: the
float division yields negative infinity and the bulb is actively driven to
the LOSS color, where the claim requires an undefined aggregate. -/
theorem C1_counterexample :
    wden (compute_portfolio recsC1 oracleC1) = 0 ∧
    valid_1d (compute_portfolio recsC1 oracleC1) ≠ [] ∧
    overall_1d_change (compute_portfolio recsC1 oracleC1) = Agg.ninf ∧
    overall_1d_change (compute_portfolio recsC1 oracleC1) ≠ Agg.undef ∧
    set_bulb_color (overall_1d_change (compute_portfolio recsC1 oracleC1)) =
      [BulbCmd.turnOn, BulbCmd.setColour 255 0 0] := by
  have hA : normalize_symbol "A" = "A.NS" := by decide
  have hB : normalize_symbol "B" = "B.NS" := by decide
  have ga1 : getField recA1 "symbol" = JVal.str "A" := rfl
  have ga2 : getField recA1 "qty" = JVal.num 1 := rfl
  have ga3 : getField recA1 "buy_price" = JVal.num 10 := rfl
  have gb1 : getField recB1 "symbol" = JVal.str "B" := rfl
  have gb2 : getField recB1 "qty" = JVal.num (-1) := rfl
  have gb3 : getField recB1 "buy_price" = JVal.num 10 := rfl
  have hm1 : (fetch_live_prices ["A.NS", "B.NS"] oracleC1).1 "A.NS" = some 100 := by
    simp [fetch_live_prices, fetch_live_prices_go, updMap, fetchPair, oracleC1,
      one_day_return]
  have hm2 : (fetch_live_prices ["A.NS", "B.NS"] oracleC1).2 "A.NS" = some 25 := by
    simp [fetch_live_prices, fetch_live_prices_go, updMap, fetchPair, oracleC1,
      one_day_return]
    all_goals norm_num [round2, roundHalfEven]
  have hm3 : (fetch_live_prices ["A.NS", "B.NS"] oracleC1).1 "B.NS" = some 100 := by
    simp [fetch_live_prices, fetch_live_prices_go, updMap, fetchPair, oracleC1,
      one_day_return]
  have hm4 : (fetch_live_prices ["A.NS", "B.NS"] oracleC1).2 "B.NS" = some 100 := by
    simp [fetch_live_prices, fetch_live_prices_go, updMap, fetchPair, oracleC1,
      one_day_return]
    all_goals norm_num [round2, roundHalfEven]
  have hcp : compute_portfolio recsC1 oracleC1 =
      [roundRow (enrichRow "A" (JVal.num 1) (JVal.num 10) (some 100) (some 25)),
       roundRow (enrichRow "B" (JVal.num (-1)) (JVal.num 10) (some 100) (some 100))] := by
    simp only [compute_portfolio, recsC1, List.map, ga1, ga2, ga3, gb1, gb2, gb3,
      symName, hA, hB, hm1, hm2, hm3, hm4]
  rw [hcp]
  have hover :
      overall_1d_change
        [roundRow (enrichRow "A" (JVal.num 1) (JVal.num 10) (some 100) (some 25)),
         roundRow (enrichRow "B" (JVal.num (-1)) (JVal.num 10) (some 100) (some 100))] =
        Agg.ninf := by
    simp [roundRow, enrichRow, coerceNum, overall_1d_change, valid_1d, wnum, wden,
      pyDivAgg]
    all_goals norm_num [round2, roundHalfEven]
  refine ⟨?_, ?_, hover, ?_, ?_⟩
  · simp [roundRow, enrichRow, coerceNum, valid_1d, wnum, wden]
    all_goals norm_num [round2, roundHalfEven]
  · simp [roundRow, enrichRow, coerceNum, valid_1d]
  · rw [hover]
    simp
  · rw [hover]
    rfl

/-- Helper: the classifier on a finite value, written with its two
threshold comparisons. -/
theorem classify_val (q : ℚ) :
    classify (Agg.val q) =
      if 3/10 < q then Signal.GAIN
      else if q < -3/10 then Signal.LOSS
      else Signal.NEUTRAL := by
  simp [classify, aggGt, aggLt]

/-- Helper: the device commands of `set_bulb_color` are exactly the
commands associated with the abstract classification. -/
theorem set_bulb_color_eq_signalCmds (a : Agg) :
    set_bulb_color a = signalCmds (classify a) := by
  cases a
  case undef => rfl
  case nan => rfl
  case pinf => rfl
  case ninf => rfl
  case val q =>
    simp only [set_bulb_color, classify, aggGt, aggLt]
    by_cases h1 : (3/10 : ℚ) < q
    · simp [h1, signalCmds]
    · by_cases h2 : q < (-3/10 : ℚ) <;> simp [h1, h2, signalCmds]

/-- C2.  The classification driving the bulb is GAIN when the aggregate
compares greater than 0.3 (including positive infinity), LOSS when it
compares less than minus 0.3 (including negative infinity), NEUTRAL for
every finite value in the closed interval from minus 0.3 to 0.3, and
UNKNOWN exactly for the undefined (`None`) input, which performs no device
operation; in particular 0.31 is GAIN, 0.3 and minus 0.3 are NEUTRAL and
minus 0.31 is LOSS, and the device command sequence always matches the
classification. -/
theorem C2_classify_thresholds :
    (∀ a : Agg, aggGt a (3/10) = true → classify a = Signal.GAIN) ∧
    (∀ a : Agg, aggLt a (-3/10) = true → classify a = Signal.LOSS) ∧
    (∀ q : ℚ, -3/10 ≤ q → q ≤ 3/10 → classify (Agg.val q) = Signal.NEUTRAL) ∧
    classify Agg.undef = Signal.UNKNOWN ∧
    classify (Agg.val (31/100)) = Signal.GAIN ∧
    classify (Agg.val (3/10)) = Signal.NEUTRAL ∧
    classify (Agg.val (-3/10)) = Signal.NEUTRAL ∧
    classify (Agg.val (-31/100)) = Signal.LOSS ∧
    (∀ a : Agg, set_bulb_color a = signalCmds (classify a)) := by
  refine ⟨?_, ?_, ?_, rfl, ?_, ?_, ?_, ?_, set_bulb_color_eq_signalCmds⟩
  · intro a h
    cases a <;> simp_all [classify, aggGt]
  · intro a h
    cases a <;> simp_all [classify, aggGt, aggLt] <;> linarith
  · intro q h1 h2
    rw [classify_val, if_neg (by linarith), if_neg (by linarith)]
  · rw [classify_val]
    norm_num
  · rw [classify_val, if_neg (by norm_num), if_neg (by norm_num)]
  · rw [classify_val, if_neg (by norm_num), if_neg (by norm_num)]
  · rw [classify_val, if_neg (by norm_num), if_pos (by norm_num)]

/-- C2 witness: the value 1 compares above the threshold and is classified
as GAIN by the theorem. -/
theorem C2_witness :
    aggGt (Agg.val 1) (3/10) = true ∧ classify (Agg.val 1) = Signal.GAIN :=
  ⟨by norm_num [aggGt], C2_classify_thresholds.1 (Agg.val 1) (by norm_num [aggGt])⟩

/-- C3.  Evaluation of the return component of `fetch_yfinance_price` at
the failing input of the claim: with `last_price = 100` and
`previous_close = 100` (both present, previous close nonzero, a flat day)
the code returns `None` for the one-day return because the truthiness
test on the computed value treats 0.0 as absent, while the claim and the
specification require the defined value 0.00.  The flanking conjuncts show
the surrounding behavior is as specified: the price is still returned, a
genuinely nonzero return is rounded and returned, and a zero or absent
previous close yields an undefined return. -/
theorem C3_flat_day_return_none :
    (fetchPair (FetchOutcome.ok (some 100) (some 100))).2 = none ∧
    (fetchPair (FetchOutcome.ok (some 100) (some 100))).1 = some 100 ∧
    (fetchPair (FetchOutcome.ok (some 101) (some 100))).2 = some 1 ∧
    (fetchPair (FetchOutcome.ok (some 100) (some 0))).2 = none ∧
    (fetchPair (FetchOutcome.ok (some 100) none)).2 = none := by
  norm_num [fetchPair, one_day_return, round2, roundHalfEven]

/-- C4 (amended).  The summary totals are computed from the table that
`compute_portfolio` has already rounded to 2 decimal places: for every
holdings table and oracle, `total_invested` equals the sum of the per-row
invested amounts each rounded to 2 decimals before summation, not the
rounding of the unrounded sum. -/
theorem C4_total_invested_sums_rounded (recs : List Record)
    (oracle : String → FetchOutcome) :
    total_invested (compute_portfolio recs oracle) =
      (recs.map (fun r =>
        round2 (coerceNum (getField r "qty") *
          coerceNum (getField r "buy_price")))).sum := by
  simp only [total_invested, compute_portfolio, List.map_map]
  rfl

/-- C4 counterexample.  Two rows invested 0.004 each: the program computes
a total of 0 by summing the rounded per-row values, while aggregating the
unrounded values and rounding only at presentation would give 0.01 — so
the summary is not computed from unrounded per-row values. -/
theorem C4_counterexample :
    total_invested (compute_portfolio recsC4 oracleFail) = 0 ∧
    round2 ((1 : ℚ) * (1/250) + 1 * (1/250)) = 1/100 := by
  have g1 : getField recC4 "symbol" = JVal.str "A" := rfl
  have g2 : getField recC4 "qty" = JVal.num 1 := rfl
  have g3 : getField recC4 "buy_price" = JVal.num (1/250) := rfl
  have hcp : compute_portfolio recsC4 oracleFail =
      [roundRow (enrichRow "A" (JVal.num 1) (JVal.num (1/250)) none none),
       roundRow (enrichRow "A" (JVal.num 1) (JVal.num (1/250)) none none)] := by
    simp [compute_portfolio, recsC4, g1, g2, g3, symName, fetch_live_prices,
      fetch_live_prices_go, updMap, fetchPair, oracleFail]
  rw [hcp]
  constructor
  · simp [total_invested, roundRow, enrichRow, coerceNum]
    norm_num [round2, roundHalfEven]
  · norm_num [round2, roundHalfEven]

/-- C5 (amended).  Appending rows with undefined `current_value` (failed
fetches) to a summary table leaves `total_current_value` unchanged but
adds their invested amounts to `total_invested`, and hence lowers
`total_profit_loss` by those amounts; `total_return_pct` is undefined
exactly when `total_invested` is zero. -/
theorem C5_totals (rows extra : List Enriched)
    (h : ∀ r ∈ extra, r.current_value = none) :
    total_current (rows ++ extra) = total_current rows ∧
    total_invested (rows ++ extra) =
      total_invested rows + (extra.map (fun r => r.invested)).sum ∧
    total_pnl (rows ++ extra) =
      total_current rows -
        (total_invested rows + (extra.map (fun r => r.invested)).sum) ∧
    (total_return_pct rows = none ↔ total_invested rows = 0) := by
  have hc : total_current (rows ++ extra) = total_current rows := by
    simp [total_current, List.filterMap_append, List.filterMap_eq_nil_iff.mpr h]
  have hi : total_invested (rows ++ extra) =
      total_invested rows + (extra.map (fun r => r.invested)).sum := by
    simp [total_invested]
  refine ⟨hc, hi, ?_, ?_⟩
  · rw [total_pnl, hc, hi]
  · unfold total_return_pct
    by_cases h0 : total_invested rows = 0 <;> simp [h0]

/-- C5 witness: one failed row appended to a one-row table, with the
hypothesis discharged concretely. -/
theorem C5_witness :
    (∀ r ∈ [failRow], r.current_value = none) ∧
    total_current ([mkRow (some 1) (some 50)] ++ [failRow]) =
      total_current [mkRow (some 1) (some 50)] :=
  ⟨by simp [failRow],
   (C5_totals [mkRow (some 1) (some 50)] [failRow] (by simp [failRow])).1⟩

/-- C5 counterexample.  A single holding (quantity 1, buy price 100) whose
quote fetch fails: its `current_value` is undefined, yet `total_invested`
is 100 and `total_profit_loss` is minus 100 — the failed row contributes
to two of the three totals, where the claim says it contributes to
none. -/
theorem C5_counterexample :
    (compute_portfolio recsC5 oracleFail).map (fun r => r.current_value) = [none] ∧
    total_invested (compute_portfolio recsC5 oracleFail) = 100 ∧
    total_pnl (compute_portfolio recsC5 oracleFail) = -100 := by
  have g1 : getField recC5 "symbol" = JVal.str "A" := rfl
  have g2 : getField recC5 "qty" = JVal.num 1 := rfl
  have g3 : getField recC5 "buy_price" = JVal.num 100 := rfl
  have hcp : compute_portfolio recsC5 oracleFail =
      [roundRow (enrichRow "A" (JVal.num 1) (JVal.num 100) none none)] := by
    simp [compute_portfolio, recsC5, g1, g2, g3, symName, fetch_live_prices,
      fetch_live_prices_go, updMap, fetchPair, oracleFail]
  rw [hcp]
  refine ⟨by simp [roundRow, enrichRow], ?_, ?_⟩
  · simp [total_invested, roundRow, enrichRow, coerceNum]
    norm_num [round2, roundHalfEven]
  · simp [total_pnl, total_invested, total_current, roundRow, enrichRow, coerceNum]
    norm_num [round2, roundHalfEven]

/-- C6.  For every row, `return_pct` is `None` when `invested` is zero
(the guarded division never produces an artifact), equals
`profit_loss / invested * 100` (propagating an undefined profit) when
`invested` is nonzero, and is undefined exactly when `invested` is zero or
the current price is absent. -/
theorem C6_return_pct_guard (sym : String) (qv bv : JVal) (cp od : Option ℚ) :
    ((enrichRow sym qv bv cp od).invested = 0 →
      (enrichRow sym qv bv cp od).return_pct = none) ∧
    ((enrichRow sym qv bv cp od).invested ≠ 0 →
      (enrichRow sym qv bv cp od).return_pct =
        (enrichRow sym qv bv cp od).profit_loss.map
          (fun x => x / (enrichRow sym qv bv cp od).invested * 100)) ∧
    ((enrichRow sym qv bv cp od).return_pct = none ↔
      (enrichRow sym qv bv cp od).invested = 0 ∨ cp = none) := by
  refine ⟨?_, ?_, ?_⟩ <;>
    simp only [enrichRow] <;>
    by_cases h : coerceNum qv * coerceNum bv = 0 <;>
    cases cp <;> simp_all

/-- C6 witness: quantity 2 at buy price 5 and current price 6 has nonzero
invested amount and the division formula applies. -/
theorem C6_witness :
    (enrichRow "A" (JVal.num 2) (JVal.num 5) (some 6) none).invested ≠ 0 ∧
    (enrichRow "A" (JVal.num 2) (JVal.num 5) (some 6) none).return_pct =
      (enrichRow "A" (JVal.num 2) (JVal.num 5) (some 6) none).profit_loss.map
        (fun x => x / (enrichRow "A" (JVal.num 2) (JVal.num 5) (some 6) none).invested * 100) :=
  ⟨by norm_num [enrichRow, coerceNum],
   (C6_return_pct_guard "A" (JVal.num 2) (JVal.num 5) (some 6) none).2.1
     (by norm_num [enrichRow, coerceNum])⟩

/-- C7.  Loading fails with the parse error exactly when the source is not
parseable as structured data, fails with the format error exactly when
some required key is absent from the overall schema of the parsed records
(in particular when every record lacks `buy_price`), and a file where one
record has the non-numeric quantity `abc` loads successfully with that
quantity coerced to 0 in the computed table. -/
theorem C7_load_errors :
    (∀ src : Option (List Record),
      load_portfolio src = Except.error LoadError.parseError ↔ src = none) ∧
    (∀ recs : List Record,
      load_portfolio (some recs) = Except.error LoadError.formatError ↔
        ∃ k ∈ requiredKeys, hasColumn recs k = false) ∧
    load_portfolio (some recsMissingBuy) = Except.error LoadError.formatError ∧
    load_portfolio (some recsAbcQty) = Except.ok recsAbcQty ∧
    (compute_portfolio recsAbcQty oracleFail).map (fun r => r.qty) = [0] := by
  refine ⟨?_, ?_, ?_, ?_, ?_⟩
  · intro src
    cases src with
    | none => simp [load_portfolio]
    | some recs =>
        unfold load_portfolio
        by_cases h : requiredKeys.all (fun k => hasColumn recs k) = true <;> simp [h]
  · intro recs
    unfold load_portfolio
    by_cases h : requiredKeys.all (fun k => hasColumn recs k) = true <;>
      simp_all [List.all_eq_true]
  · simp [load_portfolio, requiredKeys, hasColumn, recsMissingBuy]
  · simp [load_portfolio, requiredKeys, hasColumn, recsAbcQty]
  · have habc : coerceNum (JVal.str "abc") = 0 := rfl
    have hg : getField [("symbol", JVal.str "A"), ("qty", JVal.str "abc"),
        ("buy_price", JVal.num 10)] "qty" = JVal.str "abc" := rfl
    simp [compute_portfolio, recsAbcQty, roundRow, enrichRow, hg, habc]
    norm_num [round2, roundHalfEven]

/-- Helper: the fetch loop leaves the dictionaries unchanged at keys it
never visits. -/
theorem flp_go_not_mem (oracle : String → FetchOutcome) (syms : List String)
    (s : String) (hs : s ∉ syms)
    (maps : (String → Option ℚ) × (String → Option ℚ)) :
    (fetch_live_prices_go oracle syms maps).1 s = maps.1 s ∧
    (fetch_live_prices_go oracle syms maps).2 s = maps.2 s := by
  induction syms generalizing maps with
  | nil => exact ⟨rfl, rfl⟩
  | cons x rest ih =>
      have hx : s ≠ x := fun he => hs (he ▸ List.mem_cons_self x rest)
      have hrest : s ∉ rest := fun he => hs (List.mem_cons_of_mem x he)
      rw [fetch_live_prices_go]
      refine ⟨?_, ?_⟩
      · rw [(ih hrest _).1]
        simp [updMap, hx]
      · rw [(ih hrest _).2]
        simp [updMap, hx]

/-- Helper: for every visited symbol the final dictionaries hold exactly
the fetched pair for that symbol. -/
theorem flp_go_mem (oracle : String → FetchOutcome) (syms : List String)
    (s : String) (hs : s ∈ syms)
    (maps : (String → Option ℚ) × (String → Option ℚ)) :
    (fetch_live_prices_go oracle syms maps).1 s = (fetchPair (oracle s)).1 ∧
    (fetch_live_prices_go oracle syms maps).2 s = (fetchPair (oracle s)).2 := by
  induction syms generalizing maps with
  | nil => cases hs
  | cons x rest ih =>
      by_cases hr : s ∈ rest
      · rw [fetch_live_prices_go]
        exact ih hr _
      · have hx : s = x := by
          rcases List.mem_cons.mp hs with h | h
          · exact h
          · exact absurd h hr
        subst hx
        rw [fetch_live_prices_go]
        refine ⟨?_, ?_⟩
        · rw [(flp_go_not_mem oracle rest s hr _).1]
          simp [updMap]
        · rw [(flp_go_not_mem oracle rest s hr _).2]
          simp [updMap]

/-- C8.  The serial fetch loop is total and per-symbol isolated: every
symbol in the list receives a price entry and a return entry determined
solely by its own fetch outcome, a failing symbol receives the absent pair
without raising, and changing the outcomes of other symbols never affects
this symbol. -/
theorem C8_fetch_isolation (symbols : List String) (oracle : String → FetchOutcome)
    (s : String) (hs : s ∈ symbols) :
    (fetch_live_prices symbols oracle).1 s = (fetchPair (oracle s)).1 ∧
    (fetch_live_prices symbols oracle).2 s = (fetchPair (oracle s)).2 ∧
    (oracle s = FetchOutcome.fail →
      (fetch_live_prices symbols oracle).1 s = none ∧
      (fetch_live_prices symbols oracle).2 s = none) ∧
    (∀ oracle2 : String → FetchOutcome, oracle2 s = oracle s →
      (fetch_live_prices symbols oracle2).1 s = (fetch_live_prices symbols oracle).1 s ∧
      (fetch_live_prices symbols oracle2).2 s = (fetch_live_prices symbols oracle).2 s) := by
  obtain ⟨h1, h2⟩ := flp_go_mem oracle symbols s hs (fun _ => none, fun _ => none)
  refine ⟨h1, h2, ?_, ?_⟩
  · intro hf
    refine ⟨?_, ?_⟩
    · show (fetch_live_prices_go oracle symbols
          (fun _ => none, fun _ => none)).1 s = none
      rw [h1, hf]
      rfl
    · show (fetch_live_prices_go oracle symbols
          (fun _ => none, fun _ => none)).2 s = none
      rw [h2, hf]
      rfl
  · intro oracle2 ho
    obtain ⟨g1, g2⟩ := flp_go_mem oracle2 symbols s hs (fun _ => none, fun _ => none)
    refine ⟨?_, ?_⟩
    · show (fetch_live_prices_go oracle2 symbols (fun _ => none, fun _ => none)).1 s =
        (fetch_live_prices_go oracle symbols (fun _ => none, fun _ => none)).1 s
      rw [g1, h1, ho]
    · show (fetch_live_prices_go oracle2 symbols (fun _ => none, fun _ => none)).2 s =
        (fetch_live_prices_go oracle symbols (fun _ => none, fun _ => none)).2 s
      rw [g2, h2, ho]

/-- C8 witness: the symbol A in a two-symbol list, with every fetch
failing, receives the pair produced by its own outcome. -/
theorem C8_witness :
    ("A" : String) ∈ ["A", "B"] ∧
    (fetch_live_prices ["A", "B"] oracleFail).1 "A" = (fetchPair (oracleFail "A")).1 :=
  ⟨by simp, (C8_fetch_isolation ["A", "B"] oracleFail "A" (by simp)).1⟩

/-- Helper: the ampersand encoding distributes over concatenation. -/
theorem encAmp_append (a b : List Char) :
    encAmp (a ++ b) = encAmp a ++ encAmp b := by
  induction a with
  | nil => rfl
  | cons c t ih => simp [encAmp, ih]

/-- Helper: no ampersand survives the encoding. -/
theorem amp_not_mem_encAmp (l : List Char) : '&' ∉ encAmp l := by
  induction l with
  | nil => simp [encAmp]
  | cons c t ih =>
      by_cases h : c = '&'
      · simp [encAmp, h, ih]
      · simp [encAmp, h, ih, Ne.symm h]

/-- Helper: the market suffix is a fixed point of the encoding. -/
theorem encAmp_nsSuffix : encAmp nsSuffix = nsSuffix := rfl

/-- Helper: every normalized symbol ends with the market suffix. -/
theorem nsSuffix_suffix_normalize (s : String) :
    nsSuffix <:+ (normalize_symbol s).data := by
  unfold normalize_symbol withNS
  by_cases h : nsSuffix.isSuffixOf (upperL (stripL s.data))
  · rw [if_neg (by simp [AUTO_APPEND_NS, h])]
    obtain ⟨t, ht⟩ := List.isSuffixOf_iff_suffix.mp h
    show nsSuffix <:+ encAmp (upperL (stripL s.data))
    rw [← ht, encAmp_append, encAmp_nsSuffix]
    exact List.suffix_append _ _
  · rw [if_pos (by simp [AUTO_APPEND_NS, h])]
    show nsSuffix <:+ encAmp (upperL (stripL s.data) ++ nsSuffix)
    rw [encAmp_append, encAmp_nsSuffix]
    exact List.suffix_append _ _

/-- C9.  Symbol normalization is the pure function that trims, uppercases,
appends the market suffix when absent and percent-encodes ampersands: the
two examples of the specification evaluate as claimed, no ampersand occurs
in any output, every output ends with `.NS`, and a leading space never
changes the result. -/
theorem C9_normalize_symbol (s : String) :
    normalize_symbol " acme " = "ACME.NS" ∧
    normalize_symbol "M&M" = "M%26M.NS" ∧
    '&' ∉ (normalize_symbol s).data ∧
    nsSuffix <:+ (normalize_symbol s).data ∧
    normalize_symbol (String.mk (' ' :: s.data)) = normalize_symbol s := by
  refine ⟨by decide, by decide, ?_, nsSuffix_suffix_normalize s, ?_⟩
  · exact amp_not_mem_encAmp _
  · simp [normalize_symbol, stripL, List.dropWhile_cons, isSpaceChar]

/-- C10.  When the aggregate one-day change is the Python value `None`,
`set_bulb_color` performs no device operation at all: the command list is
empty and every bulb state is left exactly as it was. -/
theorem C10_undefined_no_device_action :
    set_bulb_color Agg.undef = [] ∧
    ∀ st : BulbState, applyCmds st (set_bulb_color Agg.undef) = st :=
  ⟨rfl, fun _ => rfl⟩

end LightTheGains
